import Mathlib

/-!
# GSync reconciliation engine — verification development

A shallow embedding of the GSync reconciliation engine (`src/sync.rs` with its
collaborators `src/api/drive.rs`, `src/api/oauth.rs`, `src/login/db.rs`) in
Lean 4, together with theorems settling the specification claims about it.

Modelling conventions:
* Local paths appear in two forms, mirroring the source: as component lists
  (`List String`, mirroring `PathBuf` whose equality is component-wise) inside
  the tree walker, and as byte lists (`List Nat`, the UTF-8 bytes of the path
  string that `insert_file`/`get_file_record` feed to `base64::encode`) inside
  the state-store layer.
* Machine integers are `Nat`/`Int` with the `u64 as i64` / `i64 as u64` casts
  made explicit (`u64ToI64` / `i64ToU64`).
* Fallible operations return a `Res` value: `ok`/`err` carry the threaded
  store-and-remote state, `panicked` models a Rust panic (`unwrap` on `None`),
  and `malformed` marks the one branch of `sync_child` (file node, absent
  record, absent parent record, `src/sync.rs:136-139`) whose source text is
  ill-formed (a `format!` with a placeholder but no argument, and a match arm
  of unit type where a `String` is required); the compiled program has no
  behaviour there, so the embedding gives it a distinguished outcome.
* The remote store (Google Drive) is modelled as a script of responses
  consumed call by call, and every issued call is recorded in a trace, so that
  theorems can count remote mutations exactly.
-/

/-! ## Bytes and base64 (modelling the `base64` crate, standard alphabet) -/

/-- Byte strings: lists of naturals, well-formed when every entry is `< 256`. -/
abbrev Bytes := List Nat

/-- All bytes of a byte string are below 256. -/
def BytesWF (bs : Bytes) : Prop := ∀ b ∈ bs, b < 256

instance : DecidablePred BytesWF := fun bs =>
  inferInstanceAs (Decidable (∀ b ∈ bs, b < 256))

/-- The standard base64 alphabet, in value order. -/
def b64Alphabet : List Char :=
  [ 'A','B','C','D','E','F','G','H','I','J','K','L','M',
    'N','O','P','Q','R','S','T','U','V','W','X','Y','Z',
    'a','b','c','d','e','f','g','h','i','j','k','l','m',
    'n','o','p','q','r','s','t','u','v','w','x','y','z',
    '0','1','2','3','4','5','6','7','8','9','+','/' ]

/-- The character encoding a 6-bit value. -/
def b64Char (n : Nat) : Char := b64Alphabet.getD n 'A'

/-- The 6-bit value of a base64 character (its index in the alphabet). -/
def b64Val (c : Char) : Nat := b64Alphabet.indexOf c

/-- Base64 encoding of a byte string (standard alphabet, `=` padding),
modelling `base64::encode`. -/
def b64Encode : Bytes → List Char
  | [] => []
  | [b1] => [b64Char (b1 / 4), b64Char (b1 % 4 * 16), '=', '=']
  | [b1, b2] => [b64Char (b1 / 4), b64Char (b1 % 4 * 16 + b2 / 16),
                 b64Char (b2 % 16 * 4), '=']
  | b1 :: b2 :: b3 :: rest =>
      b64Char (b1 / 4) :: b64Char (b1 % 4 * 16 + b2 / 16) ::
      b64Char (b2 % 16 * 4 + b3 / 64) :: b64Char (b3 % 64) :: b64Encode rest

/-- Base64 decoding, inverse of `b64Encode`; models `base64::decode`
(returning `none` on inputs no encoder produces). -/
def b64Decode : List Char → Option Bytes
  | [] => some []
  | c1 :: c2 :: c3 :: c4 :: rest =>
      if c3 = '=' then
        if c4 = '=' ∧ rest = [] then
          some [b64Val c1 * 4 + b64Val c2 / 16]
        else none
      else if c4 = '=' then
        if rest = [] then
          some [b64Val c1 * 4 + b64Val c2 / 16,
                b64Val c2 % 16 * 16 + b64Val c3 / 4]
        else none
      else
        match b64Decode rest with
        | some bs =>
            some ((b64Val c1 * 4 + b64Val c2 / 16) ::
                  (b64Val c2 % 16 * 16 + b64Val c3 / 4) ::
                  (b64Val c3 % 4 * 64 + b64Val c4) :: bs)
        | none => none
  | _ => none

theorem b64Val_b64Char : ∀ n, n < 64 → b64Val (b64Char n) = n := by decide

theorem b64Char_ne_eq : ∀ n, n < 64 → b64Char n ≠ '=' := by decide

/-- Base64 decoding inverts encoding on well-formed byte strings. -/
theorem b64_roundtrip : ∀ bs : Bytes, BytesWF bs → b64Decode (b64Encode bs) = some bs := by
  intro bs
  induction bs using b64Encode.induct with
  | case1 => intro _; rfl
  | case2 b1 =>
      intro h
      have hb1 : b1 < 256 := h b1 (by simp)
      have h1 : b1 / 4 < 64 := by omega
      have h2 : b1 % 4 * 16 < 64 := by omega
      simp [b64Encode, b64Decode, b64Val_b64Char _ h1, b64Val_b64Char _ h2]
      omega
  | case3 b1 b2 =>
      intro h
      have hb1 : b1 < 256 := h b1 (by simp)
      have hb2 : b2 < 256 := h b2 (by simp)
      have h1 : b1 / 4 < 64 := by omega
      have h2 : b1 % 4 * 16 + b2 / 16 < 64 := by omega
      have h3 : b2 % 16 * 4 < 64 := by omega
      simp [b64Encode, b64Decode, b64Char_ne_eq _ h3, b64Val_b64Char _ h1,
        b64Val_b64Char _ h2, b64Val_b64Char _ h3]
      omega
  | case4 b1 b2 b3 rest ih =>
      intro h
      have hb1 : b1 < 256 := h b1 (by simp)
      have hb2 : b2 < 256 := h b2 (by simp)
      have hb3 : b3 < 256 := h b3 (by simp)
      have hrest : BytesWF rest := fun b hb => h b (by simp [hb])
      have h1 : b1 / 4 < 64 := by omega
      have h2 : b1 % 4 * 16 + b2 / 16 < 64 := by omega
      have h3 : b2 % 16 * 4 + b3 / 64 < 64 := by omega
      have h4 : b3 % 64 < 64 := by omega
      simp [b64Encode, b64Decode, b64Char_ne_eq _ h3, b64Char_ne_eq _ h4,
        ih hrest, b64Val_b64Char _ h1, b64Val_b64Char _ h2, b64Val_b64Char _ h3,
        b64Val_b64Char _ h4]
      omega

/-! ## UTF-8 bytes of a path string

`insert_file`, `update_file` and `get_file_record` key the `files` table by
`base64::encode(path_str.as_bytes())`; these definitions model `as_bytes`. -/

/-- UTF-8 encoding of a single character (what `str::as_bytes` exposes). -/
def charBytes (c : Char) : List Nat :=
  let n := c.toNat
  if n < 0x80 then [n]
  else if n < 0x800 then [0xC0 + n / 64, 0x80 + n % 64]
  else if n < 0x10000 then [0xE0 + n / 4096, 0x80 + n / 64 % 64, 0x80 + n % 64]
  else [0xF0 + n / 262144, 0x80 + n / 4096 % 64, 0x80 + n / 64 % 64, 0x80 + n % 64]

/-- UTF-8 byte string of a path string. -/
def strBytes (s : String) : Bytes := (s.data.map charBytes).flatten

theorem charBytes_wf (c : Char) : BytesWF (charBytes c) := by
  have hv : c.toNat < 1114112 := by
    have h := c.valid
    simp only [UInt32.isValidChar, Nat.isValidChar, Char.toNat] at h ⊢
    rcases h with h | ⟨h1, h2⟩ <;> omega
  intro b hb
  simp only [charBytes] at hb
  split at hb <;> [skip; split at hb] <;> [skip; skip; split at hb] <;>
    simp only [List.mem_cons, List.not_mem_nil, or_false] at hb <;>
    rcases hb with rfl | rfl | rfl | rfl <;> omega

theorem strBytes_wf (s : String) : BytesWF (strBytes s) := by
  intro b hb
  simp only [strBytes, List.mem_flatten, List.mem_map] at hb
  obtain ⟨l, ⟨c, _, rfl⟩, hbl⟩ := hb
  exact charBytes_wf c b hbl

/-! ## Machine-integer casts

The store column `modification_time` is an SQLite `INTEGER` written as
`(mod_time as i64)` from a `u64` and read back with `as u64` in
`file_changed`; both casts are bit reinterpretations. -/

/-- `m as i64` for a `u64` value `m` (two's-complement reinterpretation). -/
def u64ToI64 (m : Nat) : Int :=
  if m < 2 ^ 63 then (m : Int) else (m : Int) - 2 ^ 64

/-- `s as u64` for an `i64` value `s` (two's-complement reinterpretation). -/
def i64ToU64 (s : Int) : Nat := (s % 2 ^ 64).toNat

theorem i64ToU64_u64ToI64 (m : Nat) (h : m < 2 ^ 64) : i64ToU64 (u64ToI64 m) = m := by
  simp only [u64ToI64, i64ToU64]
  split <;> omega

/-! ## State Store (`files` table) rows and operations

The `files` table (`id TEXT, path TEXT, modification_time INTEGER,
sync_include INTEGER`) is modelled as a list of rows in insertion order; its
creation is not in `src/` (the repository declares a missing
`sync::files` module), so the table is modelled as existing. -/

/-- One row of the `files` table. -/
structure Row where
  /-- remote id -/
  id : String
  /-- the stored `path` column: base64 of the path bytes -/
  pathKey : String
  /-- the stored `modification_time` column (`i64`) -/
  modTime : Int
  /-- the stored `sync_include` column -/
  syncInclude : Bool
deriving DecidableEq, Repr

/-- The `path` column value `insert_file` stores: the path string, with one
trailing `'/'` (byte 47) removed when present, then base64-encoded
(`src/sync.rs:188-197`). -/
def insertPathBytes (p : Bytes) : Bytes :=
  if p.getLast? = some 47 then p.dropLast else p

/-- The key `insert_file` writes. -/
def insertFileKey (p : Bytes) : String := ⟨b64Encode (insertPathBytes p)⟩

/-- The key `get_file_record` (and `update_file`) look up: base64 of the path
bytes, with no trailing-slash trim (`src/sync.rs:236-237`). -/
def getFileKey (p : Bytes) : String := ⟨b64Encode p⟩

/-- First row whose `path` column equals the key — the row returned by
`SELECT id,modification_time FROM files WHERE path = :path`. -/
def rowsLookup (rows : List Row) (k : String) : Option (String × Int) :=
  match rows.find? (fun r => r.pathKey == k) with
  | some r => some (r.id, r.modTime)
  | none => none

/-- `insert_file`: appends a row with `sync_include = 1`. -/
def insertFileRows (rows : List Row) (p : Bytes) (id : String) (mt : Int) : List Row :=
  rows ++ [⟨id, insertFileKey p, mt, true⟩]

/-- `get_file_record`'s row selection for path bytes `p`. -/
def getFileRecordRows (rows : List Row) (p : Bytes) : Option (String × Int) :=
  rowsLookup rows (getFileKey p)

/-- `update_file` (the local touch): sets `modification_time` and
`sync_include = 1` on every row whose `path` column equals the untrimmed
key. -/
def touchRows (rows : List Row) (p : Bytes) (mt : Int) : List Row :=
  rows.map (fun r => if r.pathKey == getFileKey p then { r with modTime := mt, syncInclude := true } else r)

/-- `reset_sync_include`: `UPDATE files SET sync_include = 0`. -/
def resetRows (rows : List Row) : List Row :=
  rows.map (fun r => { r with syncInclude := false })

/-- The rows returned by the sweep's
`SELECT path,id FROM files WHERE sync_include = 0`. -/
def staleRows (rows : List Row) : List Row :=
  rows.filter (fun r => !r.syncInclude)

/-! ## C7 — path round-trip through the store encoding -/

/-- C7 (counterexample): the claim fails for the path `"/a/"` (bytes
`[47, 97, 47]`). `insert_file` trims the trailing `'/'` before encoding
(`src/sync.rs:189-195`) while `get_file_record` does not (`src/sync.rs:236-237`),
so a record written for `"/a/"` is not found by a subsequent get on the same
path, and decoding the stored key returns `"/a"`, not the original path. -/
theorem c7_roundtrip_counterexample :
    getFileRecordRows (insertFileRows [] [47, 97, 47] "id0" 5) [47, 97, 47] = none ∧
    b64Decode (insertFileKey [47, 97, 47]).data ≠ some [47, 97, 47] ∧
    b64Decode (insertFileKey [47, 97, 47]).data = some [47, 97] := by
  decide

/-- C7 (amended): for every path whose byte string does not end with `'/'`
(byte 47), encoding on insert and decoding on read returns exactly the
original path bytes, and a record written by `insert_file` is found again by
a subsequent `get_file_record` on the same path. (For a path ending in `'/'`,
`insert_file` trims the final byte before encoding while `get_file_record`
does not, so the stored key decodes to the trimmed path and the get misses.) -/
theorem c7_roundtrip_no_trailing_slash (p : Bytes) (hwf : BytesWF p)
    (hs : p.getLast? ≠ some 47) (id : String) (mt : Int) :
    b64Decode (insertFileKey p).data = some p ∧
    getFileRecordRows (insertFileRows [] p id mt) p = some (id, mt) := by
  have htrim : insertPathBytes p = p := by
    simp only [insertPathBytes, if_neg hs]
  constructor
  · simpa only [insertFileKey, htrim] using b64_roundtrip p hwf
  · simp [getFileRecordRows, insertFileRows, rowsLookup, List.find?,
      insertFileKey, getFileKey, htrim]

/-- C7 (witness): the amended round-trip at the concrete path `"/a"`
(bytes `[47, 97]`). -/
theorem c7_roundtrip_witness :
    BytesWF [47, 97] ∧ ([47, 97] : Bytes).getLast? ≠ some 47 ∧
    (b64Decode (insertFileKey [47, 97]).data = some [47, 97] ∧
      getFileRecordRows (insertFileRows [] [47, 97] "id0" 5) [47, 97] = some ("id0", 5)) :=
  ⟨by decide, by decide,
    c7_roundtrip_no_trailing_slash [47, 97] (by decide) (by decide) "id0" 5⟩

/-! ## Errors, remote calls and threaded state -/

/-- `crate::api::GoogleError` (the `errors` detail list is irrelevant to the
reconciler and omitted). -/
structure GoogleErrorS where
  /-- the numeric error code -/
  code : Int
  /-- the error message -/
  message : String
deriving DecidableEq, Repr

/-- `crate::Error` (the `(line!, file!)` location pair attached by the
`unwrap_*` macros carries no semantic content and is omitted). -/
inductive GErr where
  | google (ge : GoogleErrorS)
  | db (msg : String)
  | request (msg : String)
  | other (msg : String)
deriving DecidableEq, Repr

/-- One entry of a `drive::list_files` response. -/
structure DriveFile where
  /-- the remote id -/
  id : String
  /-- the remote name -/
  name : String
  /-- the remote modification time -/
  modifiedTime : String
deriving DecidableEq, Repr

/-- A remote (Google Drive) call issued by the reconciler. -/
inductive RemoteCall where
  | listFiles (q : Option String) (driveId : Option String)
  | createFolder (name parent : String)
  | uploadFile (path parent : String)
  | updateFile (path id : String)
  | deleteFile (id : String)
deriving DecidableEq, Repr

/-- One scripted response of the remote store. -/
inductive RemoteResp where
  | idOk (id : String)
  | unitOk
  | filesOk (files : List DriveFile)
  | errR (e : GErr)
deriving DecidableEq, Repr

/-- The threaded state: the `files` table, the remaining remote script, the
trace of remote calls issued so far, and an injectable connection failure
(`Env::get_conn` error) for error-propagation theorems. -/
structure St where
  /-- rows of the `files` table -/
  rows : List Row
  /-- remote responses not yet consumed -/
  script : List RemoteResp
  /-- remote calls issued so far -/
  trace : List RemoteCall
  /-- when `some e`, every `env.get_conn()` fails with the database error `e` -/
  connFail : Option String
deriving DecidableEq, Repr

/-- Read-only environment: `Env.root_folder`, `Env.drive_id`, and the local
filesystem's modification times (`path.metadata().modified()`, `none` when the
metadata call fails). -/
structure SEnv where
  /-- the id of the root folder -/
  rootFolder : String
  /-- the optional Team Drive id -/
  driveId : Option String
  /-- local modification time, epoch seconds, of each path -/
  mtime : List String → Option Nat

/-- Outcome of a model operation: `ok`/`err` thread the state, `panicked`
models a Rust panic (`unwrap` on `None`), and `malformed` marks entry into
the ill-formed branch at `src/sync.rs:136-139` (see the header comment). -/
inductive Res (α : Type) where
  | ok (val : α) (s : St)
  | err (e : GErr) (s : St)
  | panicked
  | malformed
deriving DecidableEq

/-- The remote-call trace of an outcome that did not panic. -/
def Res.traceOf {α : Type} : Res α → Option (List RemoteCall)
  | .ok _ s => some s.trace
  | .err _ s => some s.trace
  | .panicked => none
  | .malformed => none

/-- Issue a remote call returning an id (`create_folder`, `upload_file`):
record it in the trace and consume the scripted response. -/
def popId (c : RemoteCall) (s : St) : Res String :=
  let s := { s with trace := s.trace ++ [c] }
  match s.script with
  | .idOk i :: r => .ok i { s with script := r }
  | .errR e :: r => .err e { s with script := r }
  | _ => .err (.other "no scripted response") s

/-- Issue a remote call returning unit (`update_file`, `delete_file`). -/
def popUnit (c : RemoteCall) (s : St) : Res Unit :=
  let s := { s with trace := s.trace ++ [c] }
  match s.script with
  | .unitOk :: r => .ok () { s with script := r }
  | .errR e :: r => .err e { s with script := r }
  | _ => .err (.other "no scripted response") s

/-- Issue a `list_files` call. -/
def popFiles (c : RemoteCall) (s : St) : Res (List DriveFile) :=
  let s := { s with trace := s.trace ++ [c] }
  match s.script with
  | .filesOk fs :: r => .ok fs { s with script := r }
  | .errR e :: r => .err e { s with script := r }
  | _ => .err (.other "no scripted response") s

/-! ## Paths as component lists -/

/-- Render a component path as the absolute path string (`[] = "/"`). -/
def renderPath (p : List String) : String := "/" ++ String.intercalate "/" p

/-- The bytes `as_bytes` sees for a component path. -/
def pathBytes (p : List String) : Bytes := strBytes (renderPath p)

/-- Does the character list start with the given needle? -/
def startsWithChars : List Char → List Char → Bool
  | _, [] => true
  | [], _ :: _ => false
  | a :: as, b :: bs => a == b && startsWithChars as bs

/-- Substring search over character lists. -/
def strContainsAux : List Char → List Char → Bool
  | [], needle => startsWithChars [] needle
  | h :: t, needle => startsWithChars (h :: t) needle || strContainsAux t needle

/-- `str::contains` (substring containment). -/
def strContains (hay needle : String) : Bool :=
  strContainsAux hay.data needle.data

/-! ## State-store operations threaded through `St`

Each of these opens its own connection (`env.get_conn()`), so each first
consults the injectable connection failure. -/

/-- `get_file_record` (`src/sync.rs:234-252`). -/
def getFileRecordSt (p : List String) (s : St) : Res (Option (String × Int)) :=
  match s.connFail with
  | some e => .err (.db e) s
  | none => .ok (getFileRecordRows s.rows (pathBytes p)) s

/-- `get_modification_time` (`src/sync.rs:210-216`); a metadata failure is an
`Error::Other`. -/
def getModTime (env : SEnv) (p : List String) (s : St) : Res Nat :=
  match env.mtime p with
  | some m => .ok m s
  | none => .err (.other "metadata") s

/-- The local `update_file` (`src/sync.rs:171-184`): reads the modification
time, then sets `modification_time` and `sync_include = 1` on the rows whose
`path` column equals the (untrimmed) key. -/
def touchFileSt (env : SEnv) (p : List String) (s : St) : Res Unit :=
  match getModTime env p s with
  | .ok m s =>
      match s.connFail with
      | some e => .err (.db e) s
      | none => .ok () { s with rows := touchRows s.rows (pathBytes p) (u64ToI64 m) }
  | .err e s => .err e s
  | .panicked => .panicked
  | .malformed => .malformed

/-- `insert_file` (`src/sync.rs:186-208`). -/
def insertFileSt (env : SEnv) (p : List String) (id : String) (s : St) : Res Unit :=
  match getModTime env p s with
  | .ok m s =>
      match s.connFail with
      | some e => .err (.db e) s
      | none => .ok () { s with rows := insertFileRows s.rows (pathBytes p) id (u64ToI64 m) }
  | .err e s => .err e s
  | .panicked => .panicked
  | .malformed => .malformed

/-- `file_changed` (`src/sync.rs:218-225`): the current modification time is
strictly greater than the stored `i64` reinterpreted `as u64`. -/
def fileChangedSt (env : SEnv) (p : List String) (stored : Int) (s : St) : Res Bool :=
  match getModTime env p s with
  | .ok m s => .ok (decide (i64ToU64 stored < m)) s
  | .err e s => .err e s
  | .panicked => .panicked
  | .malformed => .malformed

/-- `reset_sync_include` (`src/sync.rs:227-232`). -/
def resetSyncIncludeSt (s : St) : Res Unit :=
  match s.connFail with
  | some e => .err (.db e) s
  | none => .ok () { s with rows := resetRows s.rows }

/-! ## `sync_child` (`src/sync.rs:44-151`) -/

/-- The query string `sync_child` builds for the existing-folder check
(`src/sync.rs:63`); note it mentions only the name and MIME type, not the
parent. -/
def listQuery (name : String) : String :=
  "name = '" ++ name ++ "' and mimeType = 'application/vnd.google-apps.folder'"

/-- Parent-id resolution for a directory without a record
(`src/sync.rs:53-59`): at the root it is `env.root_folder`; otherwise the
parent path's record is fetched and *unwrapped* — a missing parent path or a
missing parent record is a panic. -/
def dirParentId (path : List String) (atRoot : Bool) (env : SEnv) (s : St) : Res String :=
  if atRoot then .ok env.rootFolder s
  else
    match path with
    | [] => .panicked
    | _ :: _ =>
      match getFileRecordSt path.dropLast s with
      | .ok (some (id, _)) s => .ok id s
      | .ok none _ => .panicked
      | .err e s => .err e s
      | .panicked => .panicked
      | .malformed => .malformed

/-- Parent-id resolution for a file without a record (`src/sync.rs:129-140`):
at the root it is `env.root_folder`; otherwise the parent's record is fetched
and *matched*: the `None` arm is the ill-formed branch (`src/sync.rs:136-139`). -/
def fileParentId (path : List String) (atRoot : Bool) (env : SEnv) (s : St) : Res String :=
  if atRoot then .ok env.rootFolder s
  else
    match path with
    | [] => .panicked
    | _ :: _ =>
      match getFileRecordSt path.dropLast s with
      | .ok (some (id, _)) s => .ok id s
      | .ok none _ => .malformed
      | .err e s => .err e s
      | .panicked => .panicked
      | .malformed => .malformed

/-- Folder creation with the 404 repair branch (`src/sync.rs:72-105`): on a
`GoogleError` with code 404 whose message contains `"File not found"`, the
parent is re-created (at the root: the folder itself is created under the
literal id `"root"`; otherwise the parent is re-created from its own record)
and the creation is retried exactly once; every other error, and a missing
parent record, propagates. -/
def createWithRepair (name : String) (path : List String) (parentId : String)
    (atRoot : Bool) (s : St) : Res String :=
  match popId (.createFolder name parentId) s with
  | .ok i s => .ok i s
  | .panicked => .panicked
  | .malformed => .malformed
  | .err e s =>
    match e with
    | .google ge =>
      if ge.code = 404 ∧ strContains ge.message "File not found" = true then
        match path with
        | [] => .err (.google ge) s
        | _ :: _ =>
          if atRoot then popId (.createFolder name "root") s
          else
            match getFileRecordSt path.dropLast s with
            | .err e2 s => .err e2 s
            | .panicked => .panicked
            | .malformed => .malformed
            | .ok none s => .err (.google ge) s
            | .ok (some (pid, _)) s =>
              match path.dropLast.getLast? with
              | none => .panicked
              | some pname =>
                match popId (.createFolder pname pid) s with
                | .ok _ s => popId (.createFolder name parentId) s
                | .err e3 s => .err e3 s
                | .panicked => .panicked
                | .malformed => .malformed
      else .err (.google ge) s
    | _ => .err e s

/-- The per-directory step of `sync_child` (`src/sync.rs:46-110`), excluding
the recursion into children: with a record, only the local touch; without
one, parent resolution, the existing-folder query (adopting the id of the
*last* listed file whose name contains the directory name), and — only when
no folder was adopted — creation plus `insert_file`. -/
def syncDirStep (name : String) (path : List String) (atRoot : Bool)
    (env : SEnv) (s : St) : Res Unit :=
  match getFileRecordSt path s with
  | .err e s => .err e s
  | .panicked => .panicked
  | .malformed => .malformed
  | .ok (some _) s => touchFileSt env path s
  | .ok none s =>
    match dirParentId path atRoot env s with
    | .err e s => .err e s
    | .panicked => .panicked
    | .malformed => .malformed
    | .ok parentId s =>
      match popFiles (.listFiles (some (listQuery name)) env.driveId) s with
      | .err e s => .err e s
      | .panicked => .panicked
      | .malformed => .malformed
      | .ok files s =>
        let foundId := files.foldl (fun acc f => if strContains f.name name then f.id else acc) ""
        if foundId = "" then
          match createWithRepair name path parentId atRoot s with
          | .err e s => .err e s
          | .panicked => .panicked
          | .malformed => .malformed
          | .ok newId s => insertFileSt env path newId s
        else .ok () s

/-- The file arm of `sync_child` (`src/sync.rs:116-147`). -/
def syncFile (path : List String) (atRoot : Bool) (env : SEnv) (s : St) : Res Unit :=
  match getFileRecordSt path s with
  | .err e s => .err e s
  | .panicked => .panicked
  | .malformed => .malformed
  | .ok (some (id, modTime)) s =>
    match fileChangedSt env path modTime s with
    | .err e s => .err e s
    | .panicked => .panicked
    | .malformed => .malformed
    | .ok changed s =>
      if changed then
        match path.getLast? with
        | none => .panicked
        | some _ =>
          match popUnit (.updateFile (renderPath path) id) s with
          | .err e s => .err e s
          | .panicked => .panicked
          | .malformed => .malformed
          | .ok _ s => touchFileSt env path s
      else touchFileSt env path s
  | .ok none s =>
    match fileParentId path atRoot env s with
    | .err e s => .err e s
    | .panicked => .panicked
    | .malformed => .malformed
    | .ok parentId s =>
      match path.getLast? with
      | none => .panicked
      | some _ =>
        match popId (.uploadFile (renderPath path) parentId) s with
        | .err e s => .err e s
        | .panicked => .panicked
        | .malformed => .malformed
        | .ok newId s => insertFileSt env path newId s

/-! ## The node tree (`Child`, `Directory` of `src/sync.rs:254-265`)

`Directory.children` is a `Vec<Child>`; the child list is its own inductive
so that all recursion over trees is structural. -/

mutual
inductive Child where
  | dir (d : DirNode)
  | file (path : List String)

inductive DirNode where
  | mk (name : String) (path : List String) (children : ChildList)

inductive ChildList where
  | nil
  | cons (c : Child) (rest : ChildList)
end

/-- Append two child lists. -/
def ChildList.append : ChildList → ChildList → ChildList
  | .nil, ys => ys
  | .cons x xs, ys => .cons x (xs.append ys)

mutual
/-- `sync_child` (`src/sync.rs:44-151`): the per-node step, then recursion
into the children of a directory with `at_root = false`. -/
def syncChild (c : Child) (env : SEnv) (atRoot : Bool) (s : St) : Res Unit :=
  match c with
  | .file path => syncFile path atRoot env s
  | .dir (.mk name path children) =>
    match syncDirStep name path atRoot env s with
    | .ok _ s => syncChildren children env s
    | .err e s => .err e s
    | .panicked => .panicked
    | .malformed => .malformed

/-- The children loop of `sync_child` (`src/sync.rs:112-114`). -/
def syncChildren (cs : ChildList) (env : SEnv) (s : St) : Res Unit :=
  match cs with
  | .nil => .ok () s
  | .cons c rest =>
    match syncChild c env false s with
    | .ok _ s => syncChildren rest env s
    | .err e s => .err e s
    | .panicked => .panicked
    | .malformed => .malformed
end

/-! ## The deletion sweep (`remote_delete_removed`, `src/sync.rs:153-169`) -/

/-- The final statement of the sweep is
`DELETE FROM files WHERE sync_include = `false``. The grave accents make
`false` a quoted *identifier* (SQLite's MySQL-compatibility quoting); a quoted
identifier is never read as the boolean literal, and only double quotes (not
grave accents) fall back to a string literal, so the statement fails to
prepare against the `files` table with "no such column: false". The sweep
therefore always returns this error and never deletes any row. -/
def sweepDeleteError : GErr := .db "no such column: false"

/-- The sweep's deletion loop: for each row returned by
`SELECT path,id FROM files WHERE sync_include = 0`, decode the stored path
(for logging; a decode failure propagates as `Error::Other` — the
`String::from_utf8` validity check on the decoded bytes concerns only the
logged text and is not modelled separately) and issue the remote delete.
Row-iteration errors of the underlying cursor are modelled in
`getFileRecordFromRows`/`sweepRowsLoop` below. -/
def deleteStaleLoop (stale : List Row) (s : St) : Res Unit :=
  match stale with
  | [] => .ok () s
  | r :: rest =>
    match b64Decode r.pathKey.data with
    | none => .err (.other "invalid base64") s
    | some _ =>
      match popUnit (.deleteFile r.id) s with
      | .ok _ s => deleteStaleLoop rest s
      | .err e s => .err e s
      | .panicked => .panicked
      | .malformed => .malformed

/-- `remote_delete_removed`: list the stale rows, delete each remotely, then
run the (always failing) local DELETE. -/
def remoteDeleteRemoved (s : St) : Res Unit :=
  match s.connFail with
  | some e => .err (.db e) s
  | none =>
    match deleteStaleLoop (staleRows s.rows) s with
    | .ok _ s => .err sweepDeleteError s
    | .err e s => .err e s
    | .panicked => .panicked
    | .malformed => .malformed

/-! ## The tree walker (`traverse` and `parse_gitignore`, `src/sync.rs:283-334`) -/

/-! A filesystem subtree: a file carries its text lines (only meaningful for
`.gitignore` files), a directory its named entries in listing order. -/
mutual
inductive Fs where
  | file (lines : List String)
  | dir (entries : FsEntries)

inductive FsEntries where
  | nil
  | cons (name : String) (fs : Fs) (rest : FsEntries)
end

/-- The `.gitignore` lookup a directory performs before listing
(`src/sync.rs:289-293`): the first entry named `.gitignore`, when it is a
file. (When that entry is itself a directory the real code would fail on
`read_to_string().unwrap()`; no claim touches that corner.) -/
def findGitignore : FsEntries → Option (List String)
  | .nil => none
  | .cons n f rest =>
    if n = ".gitignore" then
      match f with
      | .file lines => some lines
      | .dir _ => none
    else findGitignore rest

/-- Strip one leading `/` (`line.replacen("/", "", 1)` guarded by
`starts_with("/")`, `src/sync.rs:327`). -/
def stripSlash (l : String) : String :=
  match l.data with
  | '/' :: rest => ⟨rest⟩
  | _ => l

/-- Split a character list at `/`. -/
def splitSlashAux : List Char → List Char → List String
  | [], acc => [⟨acc.reverse⟩]
  | c :: rest, acc =>
    if c = '/' then (⟨acc.reverse⟩ : String) :: splitSlashAux rest []
    else splitSlashAux rest (c :: acc)

/-- Path components of a rule string, as `PathBuf::components` sees them
(empty and `.` components vanish; `..` is kept literally). -/
def splitPath (s : String) : List String :=
  (splitSlashAux s.data []).filter (fun c => !(c == "") && !(c == "."))

/-- `parse_gitignore` (`src/sync.rs:318-334`), anchored at the directory
containing the rule file: each non-empty, non-`#` line `l` becomes the rule
path `dir ++ splitPath (stripSlash l)`. -/
def parseGitignore (dir : List String) (lines : List String) : List (List String) :=
  (lines.filter (fun l => !(l == "") && !(l.data.head? == some '#'))).map
    (fun l => dir ++ splitPath (stripSlash l))

/-- `p.file_name().unwrap()` for the directory node name; the `unwrap` can
fail only for the filesystem root `/` (modelled as `""`), which no claim
exercises. -/
def lastName (p : List String) : String := (p.getLast?).getD ""

mutual
/-- `traverse` (`src/sync.rs:283-316`): parse the directory's `.gitignore`
into the shared accumulator *before* listing, list entries in order skipping
any whose path is in the accumulator, and thread the mutated accumulator
through sibling subtrees. A lone file named `.gitignore` is also parsed
(anchored at its parent) before being emitted as a file node. -/
def traversePath (p : List String) (fs : Fs) (excl : List (List String)) :
    ChildList × List (List String) :=
  match fs with
  | .file lines =>
    let excl := if p.getLast? = some ".gitignore"
                then excl ++ parseGitignore p.dropLast lines else excl
    (ChildList.cons (Child.file p) ChildList.nil, excl)
  | .dir entries =>
    let excl := match findGitignore entries with
                | some lines => excl ++ parseGitignore p lines
                | none => excl
    let r := traverseEntries p entries excl
    (ChildList.cons (Child.dir (DirNode.mk (lastName p) p r.fst)) ChildList.nil, r.snd)

/-- The `read_dir` loop of `traverse` (`src/sync.rs:295-303`). -/
def traverseEntries (p : List String) (es : FsEntries) (excl : List (List String)) :
    ChildList × List (List String) :=
  match es with
  | .nil => (ChildList.nil, excl)
  | .cons n f rest =>
    if (p ++ [n]) ∈ excl then traverseEntries p rest excl
    else
      let r := traversePath (p ++ [n]) f excl
      let r' := traverseEntries p rest r.snd
      (r.fst.append r'.fst, r'.snd)
end

/-! ## The whole run (`sync`, `src/sync.rs:12-42`) -/

/-- The top-level loop `for child in children { sync_child(child, env, true) }`. -/
def syncRoots (cs : ChildList) (env : SEnv) (s : St) : Res Unit :=
  match cs with
  | .nil => .ok () s
  | .cons c rest =>
    match syncChild c env true s with
    | .ok _ s => syncRoots rest env s
    | .err e s => .err e s
    | .panicked => .panicked
    | .malformed => .malformed

/-- `sync`: walk every configured root with a fresh exclusion
accumulator, reset the include flags, sync every top-level child with
`at_root = true`, then run the deletion sweep. -/
def runSync (roots : List (List String × Fs)) (env : SEnv) (s : St) : Res Unit :=
  let children := roots.foldl
    (fun acc r => acc.append (traversePath r.fst r.snd []).fst) ChildList.nil
  match resetSyncIncludeSt s with
  | .err e s => .err e s
  | .panicked => .panicked
  | .malformed => .malformed
  | .ok _ s =>
    match syncRoots children env s with
    | .err e s => .err e s
    | .panicked => .panicked
    | .malformed => .malformed
    | .ok _ s => remoteDeleteRemoved s

/-! ## Node paths (for the exclusion-scope claim) -/

mutual
/-- All local paths of the nodes of a child tree (pre-order). -/
def Child.pathsOf : Child → List (List String)
  | .file p => [p]
  | .dir (.mk _ p cs) => p :: cs.pathsOf

/-- All local paths of the nodes of a child list. -/
def ChildList.pathsOf : ChildList → List (List String)
  | .nil => []
  | .cons c rest => c.pathsOf ++ rest.pathsOf
end

/-! ## Connection events (for the one-connection claim)

A projection of the sweep's resource behaviour: every
`env.get_conn()` acquisition, every release (end of the borrowing scope or
explicit `drop`), and every remote HTTP request, in program order. -/

/-- A connection/remote event. -/
inductive Ev where
  | openConn
  | closeConn
  | remoteHit (tag : String)
deriving DecidableEq, Repr

/-- `get_access_token` (`src/api/oauth.rs:164-191`): opens a connection and
queries the `user` row; when the token is expired it explicitly drops the
result, statement and connection *before* the refresh request and the
`save_to_database` call (which opens its own connection); otherwise the
connection lives until the return. -/
def getAccessTokenEvs (hasRow expired : Bool) : List Ev :=
  [.openConn] ++
  (if hasRow then
    (if expired then
      [.closeConn, .remoteHit "oauth token refresh", .openConn, .closeConn]
     else [.closeConn])
   else [.closeConn])

/-- `drive::delete_file` (`src/api/drive.rs:354-365`): token acquisition,
then the HTTP delete. -/
def deleteFileEvs (hasRow expired : Bool) : List Ev :=
  getAccessTokenEvs hasRow expired ++ [.remoteHit "drive delete"]

/-- `remote_delete_removed` (`src/sync.rs:153-169`): opens its connection,
prepares and queries the stale-row statement, and — still holding the
connection, statement and row cursor — calls `drive::delete_file` for every
stale row; the final DELETE runs on the same connection, which is dropped at
the end of the function. -/
def remoteDeleteRemovedEvs (stale : List Row) (hasRow expired : Bool) : List Ev :=
  [.openConn] ++ (stale.map (fun _ => deleteFileEvs hasRow expired)).flatten ++ [.closeConn]

/-- Largest number of simultaneously open connections along an event list. -/
def maxOpenAux : List Ev → Nat → Nat → Nat
  | [], _, m => m
  | .openConn :: r, c, m => maxOpenAux r (c + 1) (max m (c + 1))
  | .closeConn :: r, c, m => maxOpenAux r (c - 1) m
  | .remoteHit _ :: r, c, m => maxOpenAux r c m

/-- Largest number of simultaneously open connections. -/
def maxOpen (evs : List Ev) : Nat := maxOpenAux evs 0 0

/-- Is some remote request issued while at least one connection is open? -/
def remoteWhileOpen : List Ev → Nat → Bool
  | [], _ => false
  | .openConn :: r, c => remoteWhileOpen r (c + 1)
  | .closeConn :: r, c => remoteWhileOpen r (c - 1)
  | .remoteHit _ :: r, c => (decide (1 ≤ c)) || remoteWhileOpen r c

/-! ## Row-iteration loops (for the error-propagation claim)

`get_file_record` and `remote_delete_removed` step their row cursors with
`while let Ok(Some(row)) = result.next()`: an `Err` from `next()` does not
match the pattern, so it ends the loop exactly like the end of the rows. -/

/-- A fetched row as `get_file_record` reads it. -/
structure RowData where
  /-- the `id` column -/
  id : String
  /-- the `modification_time` column -/
  modTime : Int
deriving DecidableEq, Repr

/-- The row loop of `get_file_record` (`src/sync.rs:244-251`) over the
cursor's successive `next()` results: returns the first successfully fetched
row; an iteration error ends the loop, falling through to `Ok(None)`. -/
def getFileRecordFromRows : List (Except String RowData) → Except GErr (Option (String × Int))
  | [] => .ok none
  | .ok r :: _ => .ok (some (r.id, r.modTime))
  | .error _ :: _ => .ok none

/-! ## C10 — missing parent record -/

/-- C10 (counterexample): the claim asserts that a *file* node with an absent
record and an absent parent record panics through an unconditional unwrap of
the parent's record; in fact `sync_child`'s file arm matches on the parent
record and its `None` arm is the ill-formed branch of `src/sync.rs:136-139`
(no unwrap, no panic). Concretely, for the file `/a/f.txt` with an empty
store the outcome is the `malformed` marker, not a panic. -/
theorem c10_file_counterexample :
    syncChild (Child.file ["a", "f.txt"]) ⟨"ROOT", none, fun _ => some 0⟩ false
        ⟨[], [], [], none⟩ = Res.malformed ∧
    (Res.malformed : Res Unit) ≠ Res.panicked :=
  ⟨rfl, fun h => Res.noConfusion h⟩

/-- C10 (amended): for every non-root *directory* node whose record is
absent, `sync_child` looks up the parent directory's record and
unconditionally unwraps it (`src/sync.rs:57`), so an absent parent record is
a panic rather than an error; for a *file* node in the same situation the
parent record is matched instead, and the `None` arm is the ill-formed
branch of `src/sync.rs:136-139` (modelled as the distinguished `malformed`
outcome), not a panic. -/
theorem c10_missing_parent_record (name x : String) (xs : List String)
    (children : ChildList) (env : SEnv) (s : St)
    (hconn : s.connFail = none)
    (hself : getFileRecordRows s.rows (pathBytes (x :: xs)) = none)
    (hparent : getFileRecordRows s.rows (pathBytes ((x :: xs).dropLast)) = none) :
    syncChild (Child.dir (DirNode.mk name (x :: xs) children)) env false s = Res.panicked ∧
    syncChild (Child.file (x :: xs)) env false s = Res.malformed := by
  constructor <;>
    simp [syncChild, syncFile, syncDirStep, getFileRecordSt, hconn, hself, hparent,
      dirParentId, fileParentId]

/-- C10 (witness): the amended statement at the directory `/a/d` and the file
`/a/d` over an empty store. -/
theorem c10_missing_parent_record_witness :
    (⟨[], [], [], none⟩ : St).connFail = none ∧
    getFileRecordRows ([] : List Row) (pathBytes ["a", "d"]) = none ∧
    (syncChild (Child.dir (DirNode.mk "d" ["a", "d"] ChildList.nil))
        ⟨"ROOT", none, fun _ => some 0⟩ false ⟨[], [], [], none⟩ = Res.panicked ∧
      syncChild (Child.file ["a", "d"]) ⟨"ROOT", none, fun _ => some 0⟩ false
        ⟨[], [], [], none⟩ = Res.malformed) :=
  ⟨rfl, rfl,
    c10_missing_parent_record "d" "a" ["d"] ChildList.nil
      ⟨"ROOT", none, fun _ => some 0⟩ ⟨[], [], [], none⟩ rfl rfl rfl⟩

/-! ## C4 — directory resolution without a record -/

/-- C4 (counterexample): directory `docs` at the root, no record, and a
remote listing that returns one folder named `docs` (the query
`listQuery "docs"` is not scoped to any parent). The reconciler adopts the
id and finishes the step with the store unchanged — no record with the
resolved id is persisted, contradicting the claim's "in both cases … a
record … is persisted". -/
theorem c4_adoption_counterexample :
    syncDirStep "docs" ["docs"] true ⟨"ROOT", none, fun _ => some 0⟩
        ⟨[], [RemoteResp.filesOk [⟨"remoteX", "docs", "t"⟩]], [], none⟩ =
      Res.ok () ⟨[], [], [RemoteCall.listFiles (some (listQuery "docs")) none], none⟩ ∧
    getFileRecordRows ([] : List Row) (pathBytes ["docs"]) = none :=
  ⟨rfl, rfl⟩

/-- C4 (amended): for a directory node without a record (shown at the root,
where `parent_remote_id = env.root_folder`), the reconciler queries the
remote store for folders with exactly the directory's name — the query names
only the folder name and MIME type and is *not* scoped to
`parent_remote_id`. If the listing contains a matching folder its id is
adopted and *no* record is persisted (the store is unchanged); only if no
folder is found is the folder created under `parent_remote_id`, and only
then is a record with the new id persisted. -/
theorem c4_dir_resolution (name : String) (path : List String) (env : SEnv)
    (s : St) (f : DriveFile) (rest : List RemoteResp)
    (hconn : s.connFail = none)
    (hrec : getFileRecordRows s.rows (pathBytes path) = none) :
    (s.script = .filesOk [f] :: rest → strContains f.name name = true → f.id ≠ "" →
      syncDirStep name path true env s =
        Res.ok () { s with
                    script := rest,
                    trace := s.trace ++ [.listFiles (some (listQuery name)) env.driveId] }) ∧
    (∀ newId m, s.script = .filesOk [] :: .idOk newId :: rest →
      env.mtime path = some m →
      syncDirStep name path true env s =
        Res.ok () { s with
                    script := rest,
                    trace := s.trace ++ [.listFiles (some (listQuery name)) env.driveId,
                                         .createFolder name env.rootFolder],
                    rows := insertFileRows s.rows (pathBytes path) newId (u64ToI64 m) }) := by
  constructor
  · intro hs hmatch hid
    simp [syncDirStep, getFileRecordSt, hconn, hrec, dirParentId, popFiles, hs,
      hmatch, hid]
  · intro newId m hs hm
    simp [syncDirStep, getFileRecordSt, hconn, hrec, dirParentId, popFiles, hs,
      createWithRepair, popId, insertFileSt, getModTime, hm]

/-- C4 (witness): the amended statement at the directory `/docs` with an
empty store, exercised on the adoption script. -/
theorem c4_dir_resolution_witness :
    (⟨[], [RemoteResp.filesOk [⟨"remoteX", "docs", "t"⟩]], [], none⟩ : St).connFail = none ∧
    ((⟨[], [RemoteResp.filesOk [⟨"remoteX", "docs", "t"⟩]], [], none⟩ : St).script =
      .filesOk [⟨"remoteX", "docs", "t"⟩] :: [] →
      strContains (DriveFile.mk "remoteX" "docs" "t").name "docs" = true →
      (DriveFile.mk "remoteX" "docs" "t").id ≠ "" →
      syncDirStep "docs" ["docs"] true ⟨"ROOT", none, fun _ => some 0⟩
          ⟨[], [RemoteResp.filesOk [⟨"remoteX", "docs", "t"⟩]], [], none⟩ =
        Res.ok () ⟨[], [], [RemoteCall.listFiles (some (listQuery "docs")) none], none⟩) :=
  ⟨rfl,
    (c4_dir_resolution "docs" ["docs"] ⟨"ROOT", none, fun _ => some 0⟩
      ⟨[], [RemoteResp.filesOk [⟨"remoteX", "docs", "t"⟩]], [], none⟩
      ⟨"remoteX", "docs", "t"⟩ [] rfl rfl).1⟩

/-! ## C3 — change detection -/

/-- C3: for a file that already has a record storing modification time `m0`
(written as the `i64` cast of the `u64` value `m0`), the reconciler issues
exactly one remote `update_file` call when the current local modification
time is strictly greater than `m0`, and zero remote calls (only the local
touch) when it is equal or smaller — stated over the remote trace, for every
script (so it also covers a failing remote update: the single call is still
the only one issued). -/
theorem c3_change_detection (env : SEnv) (s : St) (x : String) (xs : List String)
    (id : String) (m m0 : Nat) (atRoot : Bool)
    (hconn : s.connFail = none)
    (hrec : getFileRecordRows s.rows (pathBytes (x :: xs)) = some (id, u64ToI64 m0))
    (hm : env.mtime (x :: xs) = some m)
    (hm0 : m0 < 2 ^ 64) :
    (m0 < m →
      (syncChild (Child.file (x :: xs)) env atRoot s).traceOf =
        some (s.trace ++ [.updateFile (renderPath (x :: xs)) id])) ∧
    (m ≤ m0 →
      (syncChild (Child.file (x :: xs)) env atRoot s).traceOf = some s.trace) := by
  have hcast : i64ToU64 (u64ToI64 m0) = m0 := i64ToU64_u64ToI64 m0 hm0
  obtain ⟨y, hy⟩ : ∃ y, (x :: xs).getLast? = some y :=
    ⟨(x :: xs).getLast (by simp), List.getLast?_eq_getLast _ _⟩
  constructor
  · intro hlt
    have hdec : decide (i64ToU64 (u64ToI64 m0) < m) = true := by
      simp [hcast, hlt]
    simp only [syncChild, syncFile, getFileRecordSt, hconn, hrec, fileChangedSt,
      getModTime, hm, hdec, if_true, hy]
    rcases hs : s.script with _ | ⟨head, tail⟩
    · simp [popUnit, hs, Res.traceOf]
    · cases head <;>
        simp [popUnit, hs, Res.traceOf, touchFileSt, getModTime, hm, hconn]
  · intro hle
    have hdec : decide (i64ToU64 (u64ToI64 m0) < m) = false := by
      simp [hcast]; omega
    simp [syncChild, syncFile, getFileRecordSt, hconn, hrec, fileChangedSt,
      getModTime, hm, hdec, touchFileSt, Res.traceOf]

/-- C3 (witness): the change-detection statement at the file `/a/f` with
stored time 3: current time 5 issues exactly the one update call, and the
second conjunct instantiated with current time 5 is vacuous there. -/
theorem c3_change_detection_witness :
    (⟨[⟨"f1", getFileKey (pathBytes ["a", "f"]), u64ToI64 3, true⟩], [RemoteResp.unitOk],
        [], none⟩ : St).connFail = none ∧
    (3 : Nat) < 5 ∧
    ((3 : Nat) < 5 →
      (syncChild (Child.file ["a", "f"])
          ⟨"ROOT", none, fun p => if p = ["a", "f"] then some 5 else none⟩ false
          ⟨[⟨"f1", getFileKey (pathBytes ["a", "f"]), u64ToI64 3, true⟩],
            [RemoteResp.unitOk], [], none⟩).traceOf =
        some ([] ++ [.updateFile (renderPath ["a", "f"]) "f1"])) :=
  ⟨rfl, by decide,
    (c3_change_detection
      ⟨"ROOT", none, fun p => if p = ["a", "f"] then some 5 else none⟩
      ⟨[⟨"f1", getFileKey (pathBytes ["a", "f"]), u64ToI64 3, true⟩],
        [RemoteResp.unitOk], [], none⟩
      "a" ["f"] "f1" 5 3 false rfl rfl rfl (by decide)).1⟩

/-! ## C8 — retry-once on missing parent -/

/-- C8: when `create_folder` fails with a Google error of code 404 whose
message contains `"File not found"`, `sync_child` repairs and retries the
creation exactly once, and propagates the error in every other case. The
five conjuncts cover: at the root, the creation is redone once under the
ultimate root `"root"` — its success is adopted and its failure propagated;
below the root, the missing parent is re-created from its own record and the
creation retried exactly once — success adopted, failure propagated; and when
the parent's record is absent the *original* 404 error is propagated. In all
cases the trace extension shows at most one retry of the folder creation and
no further attempts. -/
theorem c8_retry_once (name pname x : String) (xs : List String)
    (parentId prid : String) (mt : Int) (ge : GoogleErrorS) (s : St)
    (h404 : ge.code = 404)
    (hmsg : strContains ge.message "File not found" = true) :
    (∀ i rest, s.script = .errR (.google ge) :: .idOk i :: rest →
      createWithRepair name (x :: xs) parentId true s =
        Res.ok i { s with
                   script := rest,
                   trace := s.trace ++ [.createFolder name parentId,
                                        .createFolder name "root"] }) ∧
    (∀ e2 rest, s.script = .errR (.google ge) :: .errR e2 :: rest →
      createWithRepair name (x :: xs) parentId true s =
        Res.err e2 { s with
                     script := rest,
                     trace := s.trace ++ [.createFolder name parentId,
                                          .createFolder name "root"] }) ∧
    (∀ i2 i3 rest, s.connFail = none →
      getFileRecordRows s.rows (pathBytes ((x :: xs).dropLast)) = some (prid, mt) →
      (x :: xs).dropLast.getLast? = some pname →
      s.script = .errR (.google ge) :: .idOk i2 :: .idOk i3 :: rest →
      createWithRepair name (x :: xs) parentId false s =
        Res.ok i3 { s with
                    script := rest,
                    trace := s.trace ++ [.createFolder name parentId,
                                         .createFolder pname prid,
                                         .createFolder name parentId] }) ∧
    (∀ i2 e3 rest, s.connFail = none →
      getFileRecordRows s.rows (pathBytes ((x :: xs).dropLast)) = some (prid, mt) →
      (x :: xs).dropLast.getLast? = some pname →
      s.script = .errR (.google ge) :: .idOk i2 :: .errR e3 :: rest →
      createWithRepair name (x :: xs) parentId false s =
        Res.err e3 { s with
                     script := rest,
                     trace := s.trace ++ [.createFolder name parentId,
                                          .createFolder pname prid,
                                          .createFolder name parentId] }) ∧
    (∀ rest, s.connFail = none →
      getFileRecordRows s.rows (pathBytes ((x :: xs).dropLast)) = none →
      s.script = .errR (.google ge) :: rest →
      createWithRepair name (x :: xs) parentId false s =
        Res.err (.google ge) { s with
                               script := rest,
                               trace := s.trace ++ [.createFolder name parentId] }) := by
  refine ⟨?_, ?_, ?_, ?_, ?_⟩
  · intro i rest hs
    simp [createWithRepair, popId, hs, h404, hmsg]
  · intro e2 rest hs
    simp [createWithRepair, popId, hs, h404, hmsg]
  · intro i2 i3 rest hconn hrec hlast hs
    simp [createWithRepair, popId, hs, h404, hmsg, getFileRecordSt, hconn, hrec, hlast]
  · intro i2 e3 rest hconn hrec hlast hs
    simp [createWithRepair, popId, hs, h404, hmsg, getFileRecordSt, hconn, hrec, hlast]
  · intro rest hconn hrec hs
    simp [createWithRepair, popId, hs, h404, hmsg, getFileRecordSt, hconn, hrec]

/-- C8 (witness): the at-root repair at the folder `a/d`: the first creation
fails with 404 "File not found", the single retry under `"root"` succeeds. -/
theorem c8_retry_once_witness :
    (⟨404, "File not found: xyz."⟩ : GoogleErrorS).code = 404 ∧
    strContains (GoogleErrorS.mk 404 "File not found: xyz.").message "File not found" = true ∧
    ((⟨[], [.errR (.google ⟨404, "File not found: xyz."⟩), .idOk "newid"], [], none⟩ : St).script =
      .errR (.google ⟨404, "File not found: xyz."⟩) :: .idOk "newid" :: [] →
      createWithRepair "d" ["a", "d"] "P" true
          ⟨[], [.errR (.google ⟨404, "File not found: xyz."⟩), .idOk "newid"], [], none⟩ =
        Res.ok "newid" ⟨[], [], [.createFolder "d" "P", .createFolder "d" "root"], none⟩) :=
  ⟨rfl, by decide,
    fun hs =>
      ((c8_retry_once "d" "" "a" ["d"] "P" "" 0 ⟨404, "File not found: xyz."⟩
        ⟨[], [.errR (.google ⟨404, "File not found: xyz."⟩), .idOk "newid"], [], none⟩
        rfl (by decide)).1 "newid" [] hs)⟩

/-! ## C9 — error propagation -/

/-- C9 (counterexample): the claim includes "no error is silently swallowed,
including errors occurring while iterating query result rows"; but the
`while let Ok(Some(row))` loop of `get_file_record` (`src/sync.rs:244`) ends
silently on an iteration error: a cursor whose first `next()` yields
`Err("disk I/O error")` makes `get_file_record` return `Ok(None)` — the
record is reported absent instead of the error being returned. -/
theorem c9_row_error_swallowed_counterexample :
    getFileRecordFromRows [.error "disk I/O error"] = .ok none ∧
    getFileRecordFromRows [.error "disk I/O error"] ≠
      .error (.db "disk I/O error") :=
  ⟨rfl, fun h => Except.noConfusion h⟩

/-- C9 (amended): every error raised by a child operation of the reconciler,
other than the documented retry-once case, aborts the call chain and is
returned unchanged — *except* errors occurring while iterating query result
rows, which are silently swallowed (the `while let Ok(Some(row))` loops of
`get_file_record` and the sweep treat an iteration error like the end of the
rows). Conjunct 1: a row-iteration error yields `Ok(None)`. Conjunct 2: a
connection error `e` is returned unchanged (as `DatabaseError e`) from
`sync_child` for every node. Conjunct 3: a remote upload error is returned
unchanged through `sync_child`. -/
theorem c9_error_propagation :
    (∀ e rest, getFileRecordFromRows (.error e :: rest) = .ok none) ∧
    (∀ c env atRoot s e, s.connFail = some e →
      syncChild c env atRoot s = Res.err (.db e) s) ∧
    (∀ env s e x xs rest, s.connFail = none →
      getFileRecordRows s.rows (pathBytes (x :: xs)) = none →
      s.script = .errR e :: rest →
      syncChild (Child.file (x :: xs)) env true s =
        Res.err e { s with
                    script := rest,
                    trace := s.trace ++ [.uploadFile (renderPath (x :: xs))
                                            env.rootFolder] }) := by
  refine ⟨fun e rest => rfl, ?_, ?_⟩
  · intro c env atRoot s e h
    cases c with
    | file p => simp [syncChild, syncFile, getFileRecordSt, h]
    | dir d =>
      cases d with
      | mk n p cs => simp [syncChild, syncDirStep, getFileRecordSt, h]
  · intro env s e x xs rest hconn hrec hs
    obtain ⟨y, hy⟩ : ∃ y, (x :: xs).getLast? = some y :=
      ⟨(x :: xs).getLast (by simp), List.getLast?_eq_getLast _ _⟩
    simp [syncChild, syncFile, getFileRecordSt, hconn, hrec, fileParentId, hy,
      popId, hs]

/-- C9 (witness): conjunct 2 at a concrete file node over a store whose
connection fails with "locked": the very error comes back unchanged. -/
theorem c9_error_propagation_witness :
    (⟨[], [], [], some "locked"⟩ : St).connFail = some "locked" ∧
    syncChild (Child.file ["a", "f"]) ⟨"ROOT", none, fun _ => none⟩ false
        ⟨[], [], [], some "locked"⟩ =
      Res.err (.db "locked") ⟨[], [], [], some "locked"⟩ :=
  ⟨rfl,
    c9_error_propagation.2.1 (Child.file ["a", "f"]) ⟨"ROOT", none, fun _ => none⟩
      false ⟨[], [], [], some "locked"⟩ "locked" rfl⟩

/-! ## C2 — deletion protocol (code bug in the sweep's local DELETE) -/

/-- C2: at a store holding exactly one stale record (`/gone`, not observed by
the walk), the sweep issues the remote delete exactly once and *before* any
record removal — but the record is never removed: the final
`DELETE FROM files WHERE sync_include = `false`` statement fails with
"no such column: false" (grave accents quote an identifier), so the sweep
returns a database error with the store unchanged. The claim's "deletes the
record from the State Store" never happens. -/
theorem c2_sweep_never_removes_record :
    remoteDeleteRemoved
        ⟨[⟨"rid", getFileKey (pathBytes ["gone"]), 0, false⟩], [.unitOk], [], none⟩ =
      Res.err sweepDeleteError
        ⟨[⟨"rid", getFileKey (pathBytes ["gone"]), 0, false⟩], [],
          [.deleteFile "rid"], none⟩ :=
  rfl

/-! ## C1 — idempotence of reconciliation (code bug: no run ever succeeds) -/

/-- C1: a full second run over the unchanged tree `/a` containing `x.txt`,
with both records present and modification times unchanged. The run issues
*zero* remote calls (the final state's trace is `[]` and its script is
untouched), every record regains `include = true` before the sweep (the final
rows equal the initial ones), and yet the run returns the sweep's database
error ("no such column: false"), because `remote_delete_removed`'s final
DELETE statement never prepares. Hence no reconcile run ever returns `Ok`,
and the claim's "two consecutive successful reconcile runs" is unsatisfiable
on this code, while the substance of the guarantee — zero remote mutations on
an unchanged tree — holds for the trace. -/
theorem c1_second_run_zero_calls_but_errors :
    runSync [(["a"], Fs.dir (FsEntries.cons "x.txt" (Fs.file []) FsEntries.nil))]
        ⟨"ROOT", none, fun p => if p = ["a"] then some 10
                                else if p = ["a", "x.txt"] then some 20 else none⟩
        ⟨[⟨"d1", getFileKey (pathBytes ["a"]), u64ToI64 10, true⟩,
          ⟨"f1", getFileKey (pathBytes ["a", "x.txt"]), u64ToI64 20, true⟩],
          [], [], none⟩ =
      Res.err sweepDeleteError
        ⟨[⟨"d1", getFileKey (pathBytes ["a"]), u64ToI64 10, true⟩,
          ⟨"f1", getFileKey (pathBytes ["a", "x.txt"]), u64ToI64 20, true⟩],
          [], [], none⟩ :=
  rfl

/-! ## C5 — one-connection invariant (code bug in the sweep) -/

/-- C5: with one stale record, the sweep's event projection shows two
connections open at once (its own, plus the one `get_access_token` opens
inside `drive::delete_file`), and a remote request issued while a connection
is open — the sweep holds its connection, statement and row cursor across the
nested calls, violating the one-connection discipline the claim states (and
that `get_access_token` itself carefully observes by dropping before its
nested opens). -/
theorem c5_sweep_nested_connection :
    maxOpen (remoteDeleteRemovedEvs [⟨"rid", "k", 0, false⟩] true false) = 2 ∧
    remoteWhileOpen (remoteDeleteRemovedEvs [⟨"rid", "k", 0, false⟩] true false) 0 = true := by
  decide

/-! ## C6 — exclusion scope -/

theorem childListPathsOfAppend : ∀ x y : ChildList,
    (x.append y).pathsOf = x.pathsOf ++ y.pathsOf
  | .nil, y => by simp [ChildList.append, ChildList.pathsOf]
  | .cons c rest, y => by
      simp [ChildList.append, ChildList.pathsOf, childListPathsOfAppend rest y]

/-- The accumulator only grows along `traversePath`. -/
theorem traverse_excl_mono : ∀ (p : List String) (fs : Fs) (excl : List (List String)),
    ∀ q ∈ excl, q ∈ (traversePath p fs excl).snd := by
  refine traversePath.induct
    (fun p fs excl => ∀ q ∈ excl, q ∈ (traversePath p fs excl).snd)
    (fun p es excl => ∀ q ∈ excl, q ∈ (traverseEntries p es excl).snd)
    ?_ ?_ ?_ ?_ ?_
  · intro p excl lines q hq
    simp only [traversePath]
    split
    · exact List.mem_append_left _ hq
    · exact hq
  · intro p excl entries excl1 ih q hq
    have hq1 : q ∈ (match findGitignore entries with
        | some lines => excl ++ parseGitignore p lines
        | none => excl) := by
      cases findGitignore entries <;> simp [hq]
    simp only [traversePath]
    exact ih q hq1
  · intro p excl q hq
    simpa [traverseEntries] using hq
  · intro p excl n f rest hmem ih q hq
    simp only [traverseEntries, if_pos hmem]
    exact ih q hq
  · intro p excl n f rest hmem r ihf ihrest q hq
    simp only [traverseEntries, if_neg hmem]
    exact ihrest q (ihf q hq)

/-- The accumulator only grows along the entries loop. -/
theorem traverseEntries_excl_mono : ∀ (p : List String) (es : FsEntries)
    (excl : List (List String)), ∀ q ∈ excl, q ∈ (traverseEntries p es excl).snd := by
  refine traverseEntries.induct
    (fun p fs excl => ∀ q ∈ excl, q ∈ (traversePath p fs excl).snd)
    (fun p es excl => ∀ q ∈ excl, q ∈ (traverseEntries p es excl).snd)
    ?_ ?_ ?_ ?_ ?_
  · intro p excl lines q hq
    simp only [traversePath]
    split
    · exact List.mem_append_left _ hq
    · exact hq
  · intro p excl entries excl1 ih q hq
    have hq1 : q ∈ (match findGitignore entries with
        | some lines => excl ++ parseGitignore p lines
        | none => excl) := by
      cases findGitignore entries <;> simp [hq]
    simp only [traversePath]
    exact ih q hq1
  · intro p excl q hq
    simpa [traverseEntries] using hq
  · intro p excl n f rest hmem ih q hq
    simp only [traverseEntries, if_pos hmem]
    exact ih q hq
  · intro p excl n f rest hmem r ihf ihrest q hq
    simp only [traverseEntries, if_neg hmem]
    exact ihrest q (ihf q hq)

/-- A path already in the accumulator never shows up among the node paths of
`traversePath`'s output, except as the root node `p` itself (pushed without a
check). -/
theorem traverse_no_excluded : ∀ (p : List String) (fs : Fs) (excl : List (List String)),
    ∀ q ∈ excl, q ∈ ChildList.pathsOf (traversePath p fs excl).fst → q = p := by
  refine traversePath.induct
    (fun p fs excl => ∀ q ∈ excl, q ∈ ChildList.pathsOf (traversePath p fs excl).fst → q = p)
    (fun p es excl => ∀ q ∈ excl, q ∉ ChildList.pathsOf (traverseEntries p es excl).fst)
    ?_ ?_ ?_ ?_ ?_
  · intro p excl lines q _ hq
    simp only [traversePath] at hq
    simpa [ChildList.pathsOf, Child.pathsOf] using hq
  · intro p excl entries excl1 ih q hq hmem
    have hq1 : q ∈ (match findGitignore entries with
        | some lines => excl ++ parseGitignore p lines
        | none => excl) := by
      cases findGitignore entries <;> simp [hq]
    simp only [traversePath, ChildList.pathsOf, Child.pathsOf, List.append_nil,
      List.mem_cons] at hmem
    rcases hmem with rfl | hmem
    · rfl
    · exact absurd hmem (ih q hq1)
  · intro p excl q _
    simp [traverseEntries, ChildList.pathsOf]
  · intro p excl n f rest hmem ih q hq
    simp only [traverseEntries, if_pos hmem]
    exact ih q hq
  · intro p excl n f rest hmem r ihf ihrest q hq
    simp only [traverseEntries, if_neg hmem]
    intro hin
    rw [childListPathsOfAppend, List.mem_append] at hin
    rcases hin with hin | hin
    · exact hmem (ihf q hq hin ▸ hq)
    · exact ihrest q (traverse_excl_mono (p ++ [n]) f excl q hq) hin

/-- A path already in the accumulator never shows up among the node paths of
the entries loop's output. -/
theorem traverseEntries_no_excluded : ∀ (p : List String) (es : FsEntries)
    (excl : List (List String)),
    ∀ q ∈ excl, q ∉ ChildList.pathsOf (traverseEntries p es excl).fst := by
  refine traverseEntries.induct
    (fun p fs excl => ∀ q ∈ excl, q ∈ ChildList.pathsOf (traversePath p fs excl).fst → q = p)
    (fun p es excl => ∀ q ∈ excl, q ∉ ChildList.pathsOf (traverseEntries p es excl).fst)
    ?_ ?_ ?_ ?_ ?_
  · intro p excl lines q _ hq
    simp only [traversePath] at hq
    simpa [ChildList.pathsOf, Child.pathsOf] using hq
  · intro p excl entries excl1 ih q hq hmem
    have hq1 : q ∈ (match findGitignore entries with
        | some lines => excl ++ parseGitignore p lines
        | none => excl) := by
      cases findGitignore entries <;> simp [hq]
    simp only [traversePath, ChildList.pathsOf, Child.pathsOf, List.append_nil,
      List.mem_cons] at hmem
    rcases hmem with rfl | hmem
    · rfl
    · exact absurd hmem (ih q hq1)
  · intro p excl q _
    simp [traverseEntries, ChildList.pathsOf]
  · intro p excl n f rest hmem ih q hq
    simp only [traverseEntries, if_pos hmem]
    exact ih q hq
  · intro p excl n f rest hmem r ihf ihrest q hq
    simp only [traverseEntries, if_neg hmem]
    intro hin
    rw [childListPathsOfAppend, List.mem_append] at hin
    rcases hin with hin | hin
    · exact hmem (ihf q hq hin ▸ hq)
    · exact ihrest q (traverse_excl_mono (p ++ [n]) f excl q hq) hin

/-- C6: a rule from a `.gitignore` found in directory `D` (a non-empty,
non-comment line `l`, parsed before `D`'s children are listed) yields the
rule path `D ++ splitPath (stripSlash l)`. The conjuncts state: the rule is
among the parsed rules; the rule path extends `D`; hence no path that does
not extend `D` — no sibling of `D`, no ancestor of `D` — can ever equal the
rule, so the containment check never skips such a path on this rule's
account; and no node of the traversal of `D`'s subtree other than `D` itself
has the rule's path — matching paths in `D` and all its descendants are
excluded, even though the accumulator is shared across sibling subtrees. -/
theorem c6_exclusion_scope (dpath : List String) (entries : FsEntries)
    (lines : List String) (l : String) (excl : List (List String))
    (hgi : findGitignore entries = some lines)
    (hl : l ∈ lines) (hne : ¬l = "") (hnc : ¬l.data.head? = some '#') :
    (dpath ++ splitPath (stripSlash l)) ∈ parseGitignore dpath lines ∧
    dpath <+: dpath ++ splitPath (stripSlash l) ∧
    (∀ q : List String, ¬dpath <+: q → q ≠ dpath ++ splitPath (stripSlash l)) ∧
    (∀ q ∈ ChildList.pathsOf (traversePath dpath (Fs.dir entries) excl).fst,
      q = dpath ∨ q ≠ dpath ++ splitPath (stripSlash l)) := by
  have hmemRule : (dpath ++ splitPath (stripSlash l)) ∈ parseGitignore dpath lines := by
    refine List.mem_map.2 ⟨l, List.mem_filter.2 ⟨hl, ?_⟩, rfl⟩
    simp [hne, hnc]
  have hunfold : ChildList.pathsOf (traversePath dpath (Fs.dir entries) excl).fst =
      dpath :: ChildList.pathsOf
        (traverseEntries dpath entries (excl ++ parseGitignore dpath lines)).fst := by
    simp [traversePath, hgi, ChildList.pathsOf, Child.pathsOf]
  refine ⟨hmemRule, List.prefix_append _ _, ?_, ?_⟩
  · intro q hnp hq
    exact hnp (hq ▸ List.prefix_append _ _)
  · intro q hq
    rw [hunfold, List.mem_cons] at hq
    rcases hq with rfl | hq
    · exact Or.inl rfl
    · refine Or.inr ?_
      intro hqr
      subst hqr
      exact traverseEntries_no_excluded dpath entries _ _
        (List.mem_append_right _ hmemRule) hq

/-- C6 (witness): directory `/a` containing `.gitignore` with the line `b`,
a subdirectory `b` and a file `c`; the rule `/a/b` is parsed, extends `/a`,
can equal no path outside `/a`'s subtree, and no node of the traversal other
than `/a` itself carries the path `/a/b` (the subdirectory is skipped). -/
theorem c6_exclusion_scope_witness :
    findGitignore (FsEntries.cons ".gitignore" (Fs.file ["b"])
        (FsEntries.cons "b" (Fs.dir FsEntries.nil)
          (FsEntries.cons "c" (Fs.file []) FsEntries.nil))) = some ["b"] ∧
    "b" ∈ ["b"] ∧
    ((["a"] ++ splitPath (stripSlash "b")) ∈ parseGitignore ["a"] ["b"] ∧
      ["a"] <+: ["a"] ++ splitPath (stripSlash "b") ∧
      (∀ q : List String, ¬["a"] <+: q → q ≠ ["a"] ++ splitPath (stripSlash "b")) ∧
      (∀ q ∈ ChildList.pathsOf (traversePath ["a"]
          (Fs.dir (FsEntries.cons ".gitignore" (Fs.file ["b"])
            (FsEntries.cons "b" (Fs.dir FsEntries.nil)
              (FsEntries.cons "c" (Fs.file []) FsEntries.nil)))) []).fst,
        q = ["a"] ∨ q ≠ ["a"] ++ splitPath (stripSlash "b"))) :=
  ⟨rfl, by decide,
    c6_exclusion_scope ["a"]
      (FsEntries.cons ".gitignore" (Fs.file ["b"])
        (FsEntries.cons "b" (Fs.dir FsEntries.nil)
          (FsEntries.cons "c" (Fs.file []) FsEntries.nil)))
      ["b"] "b" [] rfl (by decide) (by decide) (by decide)⟩
